import Mathlib

/-
Verification development for the provider-abstraction and format-translation
layer of a conversational CLI.  The definitions below are shallow embeddings
of the TypeScript sources:

  packages/core/src/config/modelConfig.ts   (token-limit table and resolver)
  the tokenLimit function of the models module
  packages/core/src/core/openaiClient.ts    (format mapper, HTTP client shell,
                                             streaming decoder)
  packages/core/src/core/contentGenerator.ts (configuration types)

JavaScript plain objects used as string-keyed maps are modelled as
association lists in insertion order; property assignment overwrites the
value in place and appends new keys at the end, exactly as JS objects
preserve first-insertion ordering.  JS truthiness on numbers (0 is falsy)
and on strings (the empty string is falsy) is modelled explicitly at each
use site.
-/

/-- Association-list model of a JS object: value of the first matching key. -/
def lookupEntry {α : Type} : List (String × α) → String → Option α
  | [], _ => none
  | (k', v') :: t, k => if k' = k then some v' else lookupEntry t k

/-- Association-list model of JS property assignment: overwrite in place when
the key exists, append otherwise. -/
def setEntry {α : Type} : List (String × α) → String → α → List (String × α)
  | [], k, v => [(k, v)]
  | (k', v') :: t, k, v =>
    if k' = k then (k, v) :: t else (k', v') :: setEntry t k v

/-- Model of the JS object spread: fold the overriding entries onto the base
object with property assignment. -/
def spreadEntries {α : Type} (base : List (String × α)) (extra : List (String × α)) :
    List (String × α) :=
  extra.foldl (fun t kv => setEntry t kv.1 kv.2) base

theorem lookupEntry_setEntry_self {α : Type} (t : List (String × α)) (k : String) (v : α) :
    lookupEntry (setEntry t k v) k = some v := by
  induction t with
  | nil => simp [setEntry, lookupEntry]
  | cons hd tl ih =>
    obtain ⟨k', v'⟩ := hd
    by_cases h : k' = k
    · simp [setEntry, lookupEntry, h]
    · simp [setEntry, lookupEntry, h, ih]

theorem lookupEntry_setEntry_ne {α : Type} (t : List (String × α)) (k k' : String) (v : α)
    (h : k' ≠ k) : lookupEntry (setEntry t k' v) k = lookupEntry t k := by
  induction t with
  | nil => simp [setEntry, lookupEntry, h]
  | cons hd tl ih =>
    obtain ⟨k₀, v₀⟩ := hd
    by_cases h₀ : k₀ = k'
    · subst h₀
      simp [setEntry, lookupEntry, h]
    · by_cases h₁ : k₀ = k <;> simp [setEntry, lookupEntry, h₀, h₁, ih, Ne.symm h]

theorem lookupEntry_spreadEntries_not_mem {α : Type} (extra : List (String × α))
    (base : List (String × α)) (k : String) (h : ∀ kv ∈ extra, kv.1 ≠ k) :
    lookupEntry (spreadEntries base extra) k = lookupEntry base k := by
  induction extra generalizing base with
  | nil => rfl
  | cons hd tl ih =>
    have hhd : hd.1 ≠ k := h hd (by simp)
    have htl : ∀ kv ∈ tl, kv.1 ≠ k := fun kv hm => h kv (by simp [hm])
    calc lookupEntry (spreadEntries (setEntry base hd.1 hd.2) tl) k
        = lookupEntry (setEntry base hd.1 hd.2) k := ih _ htl
      _ = lookupEntry base k := lookupEntry_setEntry_ne base k hd.1 hd.2 hhd

/-- Containment of a character list inside another, scanning left to right. -/
def containsSub : List Char → List Char → Bool
  | [], needle => needle.isEmpty
  | c :: t, needle => needle.isPrefixOf (c :: t) || containsSub t needle

/-- Model of the JS substring test a.includes(b). -/
def includes (s sub : String) : Bool :=
  containsSub s.data sub.data

/-- Model of JS parseInt(value, 10) on the digit part: leading decimal digits
folded to a natural number, none when there is no leading digit. -/
def parseIntDigits (cs : List Char) : Option Nat :=
  let ds := cs.takeWhile Char.isDigit
  if ds.isEmpty then none
  else some (ds.foldl (fun n c => n * 10 + (c.toNat - 48)) 0)

/-- Model of JS parseInt(value, 10): skip leading whitespace, optional sign,
then leading base-10 digits; NaN (none) when no digit follows. -/
def parseIntJS (s : String) : Option Int :=
  let cs := s.data.dropWhile Char.isWhitespace
  match cs with
  | '-' :: rest => (parseIntDigits rest).map (fun n => -(n : Int))
  | '+' :: rest => (parseIntDigits rest).map (fun n => (n : Int))
  | _ => (parseIntDigits cs).map (fun n => (n : Int))

/-- Built-in token-limit defaults of modelConfig.ts (DEFAULT_TOKEN_LIMITS). -/
def DEFAULT_TOKEN_LIMITS : List (String × Int) :=
  [ ("gemini-1.5-pro", 2097152),
    ("gemini-1.5-flash", 1048576),
    ("gemini-2.5-pro-preview-05-06", 1048576),
    ("gemini-2.5-pro-preview-06-05", 1048576),
    ("gemini-2.5-pro", 1048576),
    ("gemini-2.5-flash-preview-05-20", 1048576),
    ("gemini-2.5-flash", 1048576),
    ("gemini-2.5-flash-lite", 1048576),
    ("gemini-2.0-flash", 1048576),
    ("gemini-2.0-flash-preview-image-generation", 32000),
    ("gpt-4", 128000),
    ("gpt-4-turbo", 128000),
    ("gpt-4-turbo-preview", 128000),
    ("gpt-4.1", 128000),
    ("gpt-3.5-turbo", 16384),
    ("gpt-3.5-turbo-16k", 16384),
    ("gpt-4.1-mini", 16384),
    ("gpt-4-32k", 32768),
    ("gpt-4o", 128000),
    ("claude-3-opus", 200000),
    ("claude-3-sonnet", 200000),
    ("claude-3-haiku", 200000),
    ("claude-3.5-sonnet", 200000),
    ("claude-4-sonnet", 200000),
    ("llama-3.1-8b", 128000),
    ("llama-3.1-70b", 128000),
    ("llama-3.1-405b", 128000),
    ("llama-3.2-1b", 128000),
    ("llama-3.2-3b", 128000),
    ("llama-3.3-8b", 128000),
    ("llama-3.3-70b", 128000) ]

/-- Substring fallback of ModelConfigManager.getTokenLimit for names with no
usable exact entry: gpt-4 or claude-3 substrings give 128000, gpt-3.5, mini
or lite give 16384, anything else gives 1048576.  The includes tests are the
case-sensitive JS String.prototype.includes. -/
def getTokenLimitFallback (modelName : String) : Int :=
  if includes modelName ("gpt-4") || includes modelName ("claude-3") then 128000
  else if includes modelName ("gpt-3.5") || includes modelName ("mini")
      || includes modelName ("lite") then 16384
  else 1048576

/-- Embedding of ModelConfigManager.getTokenLimit, parameterised by the layered
token-limit table.  The exact-name branch guards with JS truthiness, so an
entry holding 0 is treated as missing and control falls to the substring
fallback. -/
def getTokenLimit (tokenLimits : List (String × Int)) (modelName : String) : Int :=
  match lookupEntry tokenLimits modelName with
  | some v => if v ≠ 0 then v else getTokenLimitFallback modelName
  | none => getTokenLimitFallback modelName

/-- Environment-variable key marker for token-limit overrides. -/
def TOKEN_LIMIT_ENV_MARKER : String := "MODEL_TOKEN_LIMIT_"

/-- ASCII lowercasing, modelling JS toLowerCase on the ASCII model names this
configuration format uses. -/
def toLowerAscii (s : String) : String :=
  String.mk (s.data.map Char.toLower)

/-- Model-name derivation of loadFromProcessEnv: strip the marker (18
characters), lowercase, then turn underscores into hyphens. -/
def deriveModelName (key : String) : String :=
  String.mk (((key.data.drop 18).map Char.toLower).map (fun c => if c = '_' then '-' else c))

/-- Embedding of the token-limit half of ModelConfigManager.loadFromProcessEnv:
every environment entry whose key carries the marker and whose value is a
nonempty string parsing as an integer is assigned into the table under the
derived model name. -/
def applyEnvTokenLimits (env : List (String × String)) (table : List (String × Int)) :
    List (String × Int) :=
  env.foldl
    (fun t kv =>
      if TOKEN_LIMIT_ENV_MARKER.data.isPrefixOf kv.1.data ∧ kv.2 ≠ "" then
        match parseIntJS kv.2 with
        | some n => setEntry t (deriveModelName kv.1) n
        | none => t
      else t)
    table

/-- Layered table of ModelConfigManager.initialize: built-in defaults, then
the tokenLimits object of models.json spread over them, then environment
overrides assigned over the result. -/
def buildTokenLimitTable (fileCfg : List (String × Int)) (env : List (String × String)) :
    List (String × Int) :=
  applyEnvTokenLimits env (spreadEntries DEFAULT_TOKEN_LIMITS fileCfg)

/-- Names handled by the explicit switch cases of the tokenLimit function
before it delegates to the configuration module. -/
def geminiSwitchModels : List String :=
  [ "gemini-1.5-pro", "gemini-1.5-flash", "gemini-2.5-pro-preview-05-06",
    "gemini-2.5-pro-preview-06-05", "gemini-2.5-pro",
    "gemini-2.5-flash-preview-05-20", "gemini-2.5-flash",
    "gemini-2.5-flash-lite", "gemini-2.0-flash",
    "gemini-2.0-flash-preview-image-generation" ]

/-- Global default context-window size. -/
def DEFAULT_TOKEN_LIMIT : Int := 1048576

/-- Regex rules of the catch branch of tokenLimit, reached only when the
configuration module cannot be loaded.  Each test is a case-insensitive
containment check: the optional group of the gpt-4 pattern makes it
equivalent to containment of gpt-4 itself. -/
def tokenLimitPatternRules (model : String) : Int :=
  if includes (toLowerAscii model) ("gpt-4") then 128000
  else if includes (toLowerAscii model) ("claude-3")
      || includes (toLowerAscii model) ("claude-4") then 200000
  else if includes (toLowerAscii model) ("llama-3") then 128000
  else if includes (toLowerAscii model) ("mini")
      || includes (toLowerAscii model) ("lite") then 16384
  else DEFAULT_TOKEN_LIMIT

/-- Embedding of the tokenLimit function on its normal path, where the
configuration module loads successfully: the gemini switch cases first, then
the configured resolver, which always yields a number, so the regex rules of
the catch branch are never consulted. -/
def tokenLimit (tokenLimits : List (String × Int)) (model : String) : Int :=
  if model = "gemini-1.5-pro" then 2097152
  else if model ∈ [ "gemini-1.5-flash", "gemini-2.5-pro-preview-05-06",
      "gemini-2.5-pro-preview-06-05", "gemini-2.5-pro",
      "gemini-2.5-flash-preview-05-20", "gemini-2.5-flash",
      "gemini-2.5-flash-lite", "gemini-2.0-flash" ] then 1048576
  else if model = "gemini-2.0-flash-preview-image-generation" then 32000
  else getTokenLimit tokenLimits model

theorem getTokenLimitFallback_ne_zero (m : String) : getTokenLimitFallback m ≠ 0 := by
  unfold getTokenLimitFallback
  split
  · norm_num
  · split <;> norm_num

/-- C1 counterexample: the model name llama-3-70b-instruct has no exact entry
in the default table and matches the Llama-3 regex rule, so the claim predicts
128000, but the resolver on its normal path returns the global default
1048576, because the configuration module answers first with its own
substring rules, which have no llama case. -/
theorem c1_regex_rules_counterexample :
    lookupEntry DEFAULT_TOKEN_LIMITS ("llama-3-70b-instruct") = none ∧
    tokenLimitPatternRules ("llama-3-70b-instruct") = 128000 ∧
    tokenLimit DEFAULT_TOKEN_LIMITS ("llama-3-70b-instruct") = 1048576 ∧
    (1048576 : Int) ≠ 128000 := by
  refine ⟨by decide, by decide, by decide, by decide⟩

/-- C1 amended: on the normal path, where the configuration module loads, a
model name with no exact entry in the layered table and outside the gemini
switch resolves through the substring fallback of getTokenLimit (gpt-4 or
claude-3 give 128000, gpt-3.5, mini or lite give 16384, anything else the
global default 1048576); the regex rules of tokenLimit itself, including the
claude-4 and llama-3 cases, are reached only when that module fails to
load. -/
theorem c1_token_resolver_fallback (table : List (String × Int)) (m : String)
    (hlook : lookupEntry table m = none) (hsw : m ∉ geminiSwitchModels) :
    tokenLimit table m = getTokenLimitFallback m := by
  simp only [geminiSwitchModels, List.mem_cons, List.not_mem_nil, or_false] at hsw
  push_neg at hsw
  obtain ⟨h1, h2, h3, h4, h5, h6, h7, h8, h9, h10⟩ := hsw
  simp [tokenLimit, getTokenLimit, hlook, h1, h2, h3, h4, h5, h6, h7, h8, h9, h10]

theorem c1_token_resolver_fallback_witness :
    tokenLimit DEFAULT_TOKEN_LIMITS ("claude-4-opus-custom")
      = getTokenLimitFallback ("claude-4-opus-custom") ∧
    getTokenLimitFallback ("claude-4-opus-custom") = 1048576 :=
  ⟨c1_token_resolver_fallback DEFAULT_TOKEN_LIMITS ("claude-4-opus-custom")
      (by decide) (by decide),
   by decide⟩

/-- C4 counterexample: an environment override assigning the limit 0 to the
name gpt-4-foo lands in the table, yet resolution returns the regex value
128000 rather than the override value, because the exact-match branch tests
the entry with JS truthiness. -/
theorem c4_zero_override_counterexample :
    lookupEntry (buildTokenLimitTable [] [(("MODEL_TOKEN_LIMIT_GPT_4_FOO"), ("0"))])
        ("gpt-4-foo") = some 0 ∧
    getTokenLimit (buildTokenLimitTable [] [(("MODEL_TOKEN_LIMIT_GPT_4_FOO"), ("0"))])
        ("gpt-4-foo") = 128000 ∧
    (128000 : Int) ≠ 0 := by
  refine ⟨by decide, by decide, by decide⟩

/-- C4 amended: an environment override whose value parses to a nonzero
integer overwrites the built-in and file-config entries for the derived model
name, and this exact-name result takes priority over the regex pattern rules,
so the name resolves to the override value; an override parsing to 0 is
instead ignored by the truthiness guard of the exact-match branch. -/
theorem c4_env_override_priority (fileCfg : List (String × Int)) (key value : String)
    (n : Int) (hkey : TOKEN_LIMIT_ENV_MARKER.data.isPrefixOf key.data = true)
    (hval : value ≠ "") (hparse : parseIntJS value = some n) (hn : n ≠ 0) :
    getTokenLimit (buildTokenLimitTable fileCfg [(key, value)]) (deriveModelName key) = n := by
  have hkey' : TOKEN_LIMIT_ENV_MARKER.data <+: key.data := by
    simpa using hkey
  have htab : buildTokenLimitTable fileCfg [(key, value)]
      = setEntry (spreadEntries DEFAULT_TOKEN_LIMITS fileCfg) (deriveModelName key) n := by
    simp [buildTokenLimitTable, applyEnvTokenLimits, hkey', hval, hparse]
  rw [htab]
  simp [getTokenLimit, lookupEntry_setEntry_self, hn]

theorem c4_env_override_priority_witness :
    getTokenLimit
        (buildTokenLimitTable [(("gpt-4-foo"), 999)]
          [(("MODEL_TOKEN_LIMIT_GPT_4_FOO"), ("64000"))])
        (deriveModelName ("MODEL_TOKEN_LIMIT_GPT_4_FOO")) = 64000 :=
  c4_env_override_priority [(("gpt-4-foo"), 999)] ("MODEL_TOKEN_LIMIT_GPT_4_FOO")
    ("64000") 64000 (by decide) (by decide) (by decide) (by decide)

/-- C10 confirmed: when the exact entry of a model name holds the value 0,
getTokenLimit does not return 0: the truthiness guard treats the entry as
missing and resolution falls through to the substring pattern rules and the
global default, none of which is 0. -/
theorem c10_zero_entry_fallthrough (table : List (String × Int)) (m : String)
    (h : lookupEntry table m = some 0) :
    getTokenLimit table m = getTokenLimitFallback m ∧ getTokenLimit table m ≠ 0 := by
  have hres : getTokenLimit table m = getTokenLimitFallback m := by
    simp [getTokenLimit, h]
  exact ⟨hres, hres ▸ getTokenLimitFallback_ne_zero m⟩

theorem c10_zero_entry_fallthrough_witness :
    getTokenLimit (buildTokenLimitTable [] [(("MODEL_TOKEN_LIMIT_X"), ("0"))]) ("x")
        = getTokenLimitFallback ("x") ∧
    getTokenLimit (buildTokenLimitTable [] [(("MODEL_TOKEN_LIMIT_X"), ("0"))]) ("x") ≠ 0 :=
  c10_zero_entry_fallthrough (buildTokenLimitTable [] [(("MODEL_TOKEN_LIMIT_X"), ("0"))])
    ("x") (by decide)

/-- Part of a native content element, optionally carrying text. -/
structure GPart where
  text : Option String
deriving DecidableEq, Repr

/-- Native content element: role string plus an optional ordered part list. -/
structure GContent where
  role : String
  parts : Option (List GPart)
deriving DecidableEq, Repr

/-- OpenAI chat message as produced by the format mapper. -/
structure OAIMsg where
  role : String
  content : String
deriving DecidableEq, Repr

/-- JS truthiness of part.text: present and nonempty. -/
def partHasText (p : GPart) : Bool :=
  match p.text with
  | some s => decide (s ≠ "")
  | none => false

/-- Flattened text of a native content element: the text-bearing parts joined
with no separator, the empty string when none exists.  This is the
content-text expression of FormatMapper.geminiToOpenAI. -/
def contentFlatText (c : GContent) : String :=
  String.join (((c.parts.getD []).filter partHasText).map (fun p => p.text.getD ""))

/-- Embedding of FormatMapper.geminiToOpenAI: rename model to assistant and
flatten the text parts of each element. -/
def geminiToOpenAI (contents : List GContent) : List OAIMsg :=
  contents.map (fun c =>
    { role := if c.role = "model" then "assistant" else c.role,
      content := contentFlatText c })

/-- Embedding of FormatMapper.openAIToGemini: rename assistant to model and
wrap the content as a single text part. -/
def openAIToGemini (messages : List OAIMsg) : List GContent :=
  messages.map (fun m =>
    { role := if m.role = "assistant" then "model" else m.role,
      parts := some [{ text := some m.content }] })

theorem contentFlatText_single (role s : String) :
    contentFlatText { role := role, parts := some [{ text := some s }] } = s := by
  by_cases h : s = ""
  · subst h
    rfl
  · simp [contentFlatText, partHasText, h, String.join]

/-- C9 confirmed: mapping a native content list to OpenAI messages and back
preserves the length, the role at every position (model renamed to assistant
and back, other native roles untouched), and the flattened text of every
element; part segmentation collapses to one part.  The hypothesis restricts
to native role labels, which never include assistant. -/
theorem c9_gemini_openai_roundtrip (l : List GContent)
    (h : ∀ c ∈ l, c.role ≠ "assistant") :
    (openAIToGemini (geminiToOpenAI l)).length = l.length ∧
    (openAIToGemini (geminiToOpenAI l)).map (fun c => c.role) = l.map (fun c => c.role) ∧
    (openAIToGemini (geminiToOpenAI l)).map contentFlatText = l.map contentFlatText := by
  refine ⟨by simp [openAIToGemini, geminiToOpenAI], ?_, ?_⟩
  · simp only [openAIToGemini, geminiToOpenAI, List.map_map]
    apply List.map_congr_left
    intro c hc
    have hr := h c hc
    by_cases hm : c.role = "model" <;> simp [Function.comp, hm, hr]
  · simp only [openAIToGemini, geminiToOpenAI, List.map_map]
    apply List.map_congr_left
    intro c hc
    exact contentFlatText_single _ (contentFlatText c)

theorem c9_gemini_openai_roundtrip_witness :
    (openAIToGemini (geminiToOpenAI
        [ { role := "user", parts := some [{ text := some "a" }, { text := none },
              { text := some "b" }] },
          { role := "model", parts := some [{ text := some "" }] },
          { role := "user", parts := none } ])).map (fun c => c.role)
      = [ "user", "model", "user" ] ∧
    (openAIToGemini (geminiToOpenAI
        [ { role := "user", parts := some [{ text := some "a" }, { text := none },
              { text := some "b" }] },
          { role := "model", parts := some [{ text := some "" }] },
          { role := "user", parts := none } ])).map contentFlatText
      = [ "ab", "", "" ] := by
  have h := c9_gemini_openai_roundtrip
    [ { role := "user", parts := some [{ text := some "a" }, { text := none },
          { text := some "b" }] },
      { role := "model", parts := some [{ text := some "" }] },
      { role := "user", parts := none } ] (by decide)
  exact ⟨by rw [h.2.1]; decide, by rw [h.2.2]; decide⟩

/-- Upstream message carrying optional content, as inspected dynamically by
the response mapper. -/
structure RMessage where
  content : Option String
deriving DecidableEq, Repr

/-- Upstream choice: optional message, optional finish reason, optional
index. -/
structure RChoice where
  message : Option RMessage
  finish_reason : Option String
  index : Option Int
deriving DecidableEq, Repr

/-- Dynamic shape of the message field of an upstream response: absent, an
array of messages, or a single message object. -/
inductive MsgField where
  | absent
  | arr (ms : List RMessage)
  | obj (m : RMessage)
deriving DecidableEq, Repr

/-- Dynamic upstream response envelope as probed by
FormatMapper.openAIResponseToGemini. -/
structure OAIResponseShape where
  choices : Option (List RChoice)
  message : MsgField
deriving DecidableEq, Repr

/-- Normalized candidate of the mapped response: flattened text, finish
reason string, index. -/
structure NormCandidate where
  text : String
  finishReason : String
  index : Int
deriving DecidableEq, Repr

/-- Embedding of FormatMapper.openAIResponseToGemini: probe the standard
choices shape, then the legacy message-array shape, then the legacy single
message object; the two legacy branches fabricate a choice with the
lowercase finish reason stop and index 0, and the final candidate defaults a
falsy finish reason to STOP and a falsy index to 0. -/
def openAIResponseToGemini (r : OAIResponseShape) : NormCandidate :=
  let pair : String × Option RChoice :=
    match r.choices with
    | some (c :: _) => (((c.message.map (fun m => m.content.getD "")).getD ""), some c)
    | _ =>
      match r.message with
      | MsgField.arr (m :: _) =>
        (m.content.getD "",
         some { message := some m, finish_reason := some ("stop"), index := some 0 })
      | MsgField.obj m =>
        (m.content.getD "",
         some { message := some m, finish_reason := some ("stop"), index := some 0 })
      | MsgField.absent => ("", none)
      | MsgField.arr [] => ("", none)
  { text := pair.1,
    finishReason :=
      match pair.2 with
      | some c =>
        match c.finish_reason with
        | some fr => if fr ≠ "" then fr else "STOP"
        | none => "STOP"
      | none => "STOP",
    index :=
      match pair.2 with
      | some c => c.index.getD 0
      | none => 0 }

/-- C2 counterexample: a legacy array-shaped response with no finish reason
maps to a candidate whose finishReason is the lowercase string stop
fabricated by the mapper, not the claimed default STOP. -/
theorem c2_legacy_stop_counterexample :
    openAIResponseToGemini
        { choices := none, message := MsgField.arr [{ content := some ("hi") }] }
      = { text := "hi", finishReason := "stop", index := 0 } ∧
    ("stop" : String) ≠ "STOP" := by
  refine ⟨rfl, by decide⟩

/-- C2 amended: each of the three tolerated response shapes maps to one
candidate carrying the shape's content text with index 0; the standard
choices shape defaults an omitted finish reason to STOP, while the two
legacy shapes carry the lowercase finish reason stop that the mapper
fabricates. -/
theorem c2_response_shapes (t : String) :
    openAIResponseToGemini
        { choices := some [{ message := some { content := some t },
                             finish_reason := none, index := none }],
          message := MsgField.absent }
      = { text := t, finishReason := "STOP", index := 0 } ∧
    openAIResponseToGemini
        { choices := none, message := MsgField.arr [{ content := some t }] }
      = { text := t, finishReason := "stop", index := 0 } ∧
    openAIResponseToGemini
        { choices := none, message := MsgField.obj { content := some t } }
      = { text := t, finishReason := "stop", index := 0 } := by
  refine ⟨rfl, rfl, rfl⟩

/-- Header object of OpenAIContentGenerator.makeRequest: content type and
authorization first, then the caller-supplied headers spread over them, then
the organization header assigned last when configured. -/
def makeRequestHeaders (apiKey : String) (callerHeaders : List (String × String))
    (organization : Option String) : List (String × String) :=
  let base := setEntry (setEntry [] ("Content-Type") ("application/json"))
    ("Authorization") ("Bearer " ++ apiKey)
  let merged := spreadEntries base callerHeaders
  match organization with
  | some org => setEntry merged ("OpenAI-Organization") org
  | none => merged

/-- Header object of OpenAIContentGenerator.makeStreamRequest: same as
makeRequest plus the event-stream accept header before the caller spread. -/
def makeStreamRequestHeaders (apiKey : String) (callerHeaders : List (String × String))
    (organization : Option String) : List (String × String) :=
  let base := setEntry (setEntry (setEntry [] ("Content-Type") ("application/json"))
    ("Authorization") ("Bearer " ++ apiKey)) ("Accept") ("text/event-stream")
  let merged := spreadEntries base callerHeaders
  match organization with
  | some org => setEntry merged ("OpenAI-Organization") org
  | none => merged

/-- C6 counterexample: a caller-supplied Authorization header is spread after
the provider header object, so it does override the bearer value derived
from the configured key. -/
theorem c6_auth_override_counterexample :
    lookupEntry (makeRequestHeaders ("k") [(("Authorization"), ("Bearer stolen"))] none)
        ("Authorization") = some ("Bearer stolen") ∧
    ("Bearer stolen" : String) ≠ "Bearer " ++ "k" := by
  refine ⟨by decide, by decide⟩

/-- C6 amended: the headers sent merge the caller-supplied map over the
provider-required Content-Type and Authorization entries, with the
organization header assigned last; because the caller map is spread after
the authorization entry, a caller Authorization entry wins, and only when
the caller supplies no Authorization entry does the sent value equal Bearer
followed by the configured key, on both the plain and the streaming
request. -/
theorem c6_headers_auth (apiKey : String) (caller : List (String × String))
    (org : Option String) (h : ∀ kv ∈ caller, kv.1 ≠ "Authorization") :
    lookupEntry (makeRequestHeaders apiKey caller org) ("Authorization")
      = some ("Bearer " ++ apiKey) ∧
    lookupEntry (makeStreamRequestHeaders apiKey caller org) ("Authorization")
      = some ("Bearer " ++ apiKey) := by
  constructor
  · cases org with
    | none =>
      simp only [makeRequestHeaders]
      rw [lookupEntry_spreadEntries_not_mem caller _ _ h, lookupEntry_setEntry_self]
    | some o =>
      simp only [makeRequestHeaders]
      rw [lookupEntry_setEntry_ne _ _ _ _ (by decide),
        lookupEntry_spreadEntries_not_mem caller _ _ h, lookupEntry_setEntry_self]
  · cases org with
    | none =>
      simp only [makeStreamRequestHeaders]
      rw [lookupEntry_spreadEntries_not_mem caller _ _ h,
        lookupEntry_setEntry_ne _ _ _ _ (by decide), lookupEntry_setEntry_self]
    | some o =>
      simp only [makeStreamRequestHeaders]
      rw [lookupEntry_setEntry_ne _ _ _ _ (by decide),
        lookupEntry_spreadEntries_not_mem caller _ _ h,
        lookupEntry_setEntry_ne _ _ _ _ (by decide), lookupEntry_setEntry_self]

theorem c6_headers_auth_witness :
    lookupEntry (makeRequestHeaders ("sk-test") [(("User-Agent"), ("GeminiCLI"))]
        (some ("org1"))) ("Authorization") = some ("Bearer " ++ "sk-test") ∧
    lookupEntry (makeStreamRequestHeaders ("sk-test") [(("User-Agent"), ("GeminiCLI"))]
        (some ("org1"))) ("Authorization") = some ("Bearer " ++ "sk-test") :=
  c6_headers_auth ("sk-test") [(("User-Agent"), ("GeminiCLI"))] (some ("org1")) (by decide)

/-- Per-call generation config carrying the tuning knobs the request builder
reads. -/
structure GenRequestConfig where
  temperature : Option Rat
  topP : Option Rat
deriving DecidableEq, Repr

/-- Generator-level openaiConfig tuning options. -/
structure OpenAIConfigOpts where
  organization : Option String
  maxTokens : Option Int
  temperature : Option Rat
  topP : Option Rat
deriving DecidableEq, Repr

/-- Outgoing chat-completions request body. -/
structure OpenAIRequestBody where
  model : String
  messages : List OAIMsg
  max_tokens : Option Int
  temperature : Option Rat
  top_p : Option Rat
deriving DecidableEq, Repr

/-- JS logical-or on optional numbers: a defined nonzero left operand wins,
otherwise the right operand is taken, so both undefined and 0 on the left
fall through. -/
def jsOrNum (a b : Option Rat) : Option Rat :=
  match a with
  | some x => if x = 0 then b else some x
  | none => b

/-- Request body construction shared verbatim by generateContent and
generateContentStream: per-call tuning values combined with the
generator-level ones through JS logical-or. -/
def buildChatRequest (model : String) (contents : List GContent)
    (requestConfig : Option GenRequestConfig) (openaiConfig : Option OpenAIConfigOpts) :
    OpenAIRequestBody :=
  { model := model,
    messages := geminiToOpenAI contents,
    max_tokens := openaiConfig.bind (fun c => c.maxTokens),
    temperature := jsOrNum (requestConfig.bind (fun c => c.temperature))
      (openaiConfig.bind (fun c => c.temperature)),
    top_p := jsOrNum (requestConfig.bind (fun c => c.topP))
      (openaiConfig.bind (fun c => c.topP)) }

/-- C7 counterexample: a per-call temperature of 0 loses to the configured
generator-level temperature because the resolution uses JS logical-or, which
treats 0 as unset. -/
theorem c7_zero_temperature_counterexample :
    (buildChatRequest ("m") [] (some { temperature := some 0, topP := none })
        (some { organization := none, maxTokens := none,
                temperature := some 1, topP := none })).temperature = some 1 ∧
    some (1 : Rat) ≠ some (0 : Rat) := by
  refine ⟨rfl, by decide⟩

/-- C7 amended: a per-call temperature wins only when it is supplied and
nonzero; a per-call value of 0, like an unset one, falls back to the
configured generator-level value, and when that is unset too the field stays
undefined; the same resolution applies to topP. -/
theorem c7_tuning_resolution (model : String) (contents : List GContent)
    (rc : Option GenRequestConfig) (oc : Option OpenAIConfigOpts) :
    (∀ t : Rat, rc.bind (fun c => c.temperature) = some t → t ≠ 0 →
      (buildChatRequest model contents rc oc).temperature = some t) ∧
    (rc.bind (fun c => c.temperature) = none ∨ rc.bind (fun c => c.temperature) = some 0 →
      (buildChatRequest model contents rc oc).temperature
        = oc.bind (fun c => c.temperature)) ∧
    (∀ t : Rat, rc.bind (fun c => c.topP) = some t → t ≠ 0 →
      (buildChatRequest model contents rc oc).top_p = some t) ∧
    (rc.bind (fun c => c.topP) = none ∨ rc.bind (fun c => c.topP) = some 0 →
      (buildChatRequest model contents rc oc).top_p = oc.bind (fun c => c.topP)) := by
  refine ⟨?_, ?_, ?_, ?_⟩
  · intro t ht hne
    simp [buildChatRequest, jsOrNum, ht, hne]
  · rintro (h | h) <;> simp [buildChatRequest, jsOrNum, h]
  · intro t ht hne
    simp [buildChatRequest, jsOrNum, ht, hne]
  · rintro (h | h) <;> simp [buildChatRequest, jsOrNum, h]

theorem c7_tuning_resolution_witness :
    (buildChatRequest ("m") [] (some { temperature := some 1, topP := none })
        none).temperature = some 1 ∧
    (buildChatRequest ("m") [] (some { temperature := none, topP := none })
        none).temperature = none := by
  refine ⟨c7_tuning_resolution ("m") [] (some { temperature := some 1, topP := none })
      none |>.1 1 rfl (by decide), ?_⟩
  have h := c7_tuning_resolution ("m") [] (some { temperature := none, topP := none }) none
  exact (h.2.1 (Or.inl rfl)).trans rfl

/-- Constructor-relevant slice of the content-generator configuration. -/
structure GeneratorInitConfig where
  apiKey : Option String
  baseUrl : Option String
deriving DecidableEq, Repr

/-- JS truthiness of an optional string: present and nonempty. -/
def strTruthy (s : Option String) : Bool :=
  match s with
  | some v => decide (v ≠ "")
  | none => false

/-- Embedding of the OpenAIContentGenerator constructor: a pure check that
throws when the API key is falsy and otherwise returns the configuration
with the base URL defaulted to the official endpoint when falsy.  The
constructor performs no I O, so the failure happens before any network
activity. -/
def openAIGeneratorConstruct (config : GeneratorInitConfig) :
    Except String GeneratorInitConfig :=
  if ¬ strTruthy config.apiKey then Except.error ("OpenAI API key is required")
  else if ¬ strTruthy config.baseUrl then
    Except.ok { config with baseUrl := some ("https://api.openai.com/v1") }
  else Except.ok config

/-- C8 confirmed: constructing the generator with an absent API key fails
with the configuration error message before any network activity, and
constructing with a nonempty key and no base URL succeeds with the base URL
defaulted to the official OpenAI endpoint. -/
theorem c8_constructor_contract :
    (∀ b : Option String, openAIGeneratorConstruct { apiKey := none, baseUrl := b }
        = Except.error ("OpenAI API key is required")) ∧
    (∀ k : String, k ≠ "" → openAIGeneratorConstruct { apiKey := some k, baseUrl := none }
        = Except.ok { apiKey := some k, baseUrl := some ("https://api.openai.com/v1") }) := by
  constructor
  · intro b
    rfl
  · intro k hk
    simp [openAIGeneratorConstruct, strTruthy, hk]

theorem c8_constructor_contract_witness :
    openAIGeneratorConstruct { apiKey := none, baseUrl := some ("http://localhost") }
        = Except.error ("OpenAI API key is required") ∧
    openAIGeneratorConstruct { apiKey := some ("sk-1"), baseUrl := none }
        = Except.ok { apiKey := some ("sk-1"),
                      baseUrl := some ("https://api.openai.com/v1") } :=
  ⟨c8_constructor_contract.1 (some ("http://localhost")),
   c8_constructor_contract.2 ("sk-1") (by decide)⟩

/-- Structured value produced by JSON parsing of a stream frame payload. -/
inductive JVal where
  | jnull
  | jbool (b : Bool)
  | jnum (n : Int)
  | jstr (s : String)
  | jarr (elems : List JVal)
  | jobj (fields : List (String × JVal))

/-- JSON whitespace skipping. -/
def skipWs (l : List Char) : List Char :=
  l.dropWhile (fun c => c = ' ' ∨ c = '\t' ∨ c = '\n' ∨ c = '\r')

/-- Body of a JSON string after the opening quote: content characters up to
the closing quote, with the common escapes. -/
def parseStringBody : List Char → Option (List Char × List Char)
  | [] => none
  | '"' :: rest => some ([], rest)
  | '\\' :: esc :: rest =>
    ((match esc with
      | '"' => some '"'
      | '\\' => some '\\'
      | '/' => some '/'
      | 'n' => some '\n'
      | 't' => some '\t'
      | 'r' => some '\r'
      | _ => none : Option Char)).bind
      (fun c => (parseStringBody rest).map (fun p => (c :: p.1, p.2)))
  | c :: rest => (parseStringBody rest).map (fun p => (c :: p.1, p.2))

/-- Integer tail of a JSON number: leading digits, rejecting the fraction and
exponent forms, which this wire format never carries. -/
def parseNumTail (l : List Char) : Option (Int × List Char) :=
  let ds := l.takeWhile Char.isDigit
  if ds.isEmpty then none
  else
    match l.drop ds.length with
    | '.' :: _ => none
    | 'e' :: _ => none
    | 'E' :: _ => none
    | rest => some (Int.ofNat (ds.foldl (fun n c => n * 10 + (c.toNat - 48)) 0), rest)

mutual

/-- Recursive-descent JSON value parsing with explicit fuel, modelling the
grammar fragment this wire protocol exercises: literals, integers, strings,
arrays and objects. -/
def parseVal : Nat → List Char → Option (JVal × List Char)
  | 0, _ => none
  | Nat.succ fuel, l =>
    match skipWs l with
    | 'n' :: 'u' :: 'l' :: 'l' :: rest => some (JVal.jnull, rest)
    | 't' :: 'r' :: 'u' :: 'e' :: rest => some (JVal.jbool true, rest)
    | 'f' :: 'a' :: 'l' :: 's' :: 'e' :: rest => some (JVal.jbool false, rest)
    | '"' :: rest => (parseStringBody rest).map (fun p => (JVal.jstr (String.mk p.1), p.2))
    | '[' :: rest =>
      (match skipWs rest with
       | ']' :: r2 => some (JVal.jarr [], r2)
       | _ => (parseArrItems fuel rest).map (fun p => (JVal.jarr p.1, p.2)))
    | '{' :: rest =>
      (match skipWs rest with
       | '}' :: r2 => some (JVal.jobj [], r2)
       | _ => (parseObjItems fuel rest).map (fun p => (JVal.jobj p.1, p.2)))
    | '-' :: rest => (parseNumTail rest).map (fun p => (JVal.jnum (-p.1), p.2))
    | c :: rest =>
      if c.isDigit then (parseNumTail (c :: rest)).map (fun p => (JVal.jnum p.1, p.2))
      else none
    | [] => none

/-- Comma-separated JSON array items up to the closing bracket. -/
def parseArrItems : Nat → List Char → Option (List JVal × List Char)
  | 0, _ => none
  | Nat.succ fuel, l =>
    (parseVal fuel l).bind
      (fun p =>
        match skipWs p.2 with
        | ',' :: r2 => (parseArrItems fuel r2).map (fun q => (p.1 :: q.1, q.2))
        | ']' :: r2 => some ([p.1], r2)
        | _ => none)

/-- Comma-separated JSON object members up to the closing brace. -/
def parseObjItems : Nat → List Char → Option (List (String × JVal) × List Char)
  | 0, _ => none
  | Nat.succ fuel, l =>
    match skipWs l with
    | '"' :: rest =>
      (parseStringBody rest).bind
        (fun kp =>
          match skipWs kp.2 with
          | ':' :: r2 =>
            (parseVal fuel r2).bind
              (fun vp =>
                match skipWs vp.2 with
                | ',' :: r4 =>
                  (parseObjItems fuel r4).map
                    (fun q => ((String.mk kp.1, vp.1) :: q.1, q.2))
                | '}' :: r4 => some ([(String.mk kp.1, vp.1)], r4)
                | _ => none)
          | _ => none)
    | _ => none

end

/-- Model of JSON.parse on a frame payload: one value followed only by
whitespace, everything else failing. -/
def jsonParse (l : List Char) : Option JVal :=
  match parseVal (l.length + 1) l with
  | some (v, r) => if skipWs r = [] then some v else none
  | none => none

/-- Model of the JS String.prototype.trim call on a decoded line. -/
def trimChars (l : List Char) : List Char :=
  ((l.dropWhile Char.isWhitespace).reverse.dropWhile Char.isWhitespace).reverse

/-- Outcome of handling one complete line inside the stream read loop. -/
inductive LineOut where
  | skip
  | done
  | emit (v : JVal)

/-- Per-line handling of makeStreamRequest: trim, require the data prefix,
terminate on the DONE payload, otherwise parse the payload as JSON and skip
the line silently when parsing fails. -/
def processLine (line : List Char) : LineOut :=
  let trimmed := trimChars line
  if trimmed = [] ∨ ¬ (("data: ").data.isPrefixOf trimmed) then LineOut.skip
  else
    let dataPart := trimmed.drop 6
    if dataPart = ("[DONE]").data then LineOut.done
    else
      match jsonParse dataPart with
      | some v => LineOut.emit v
      | none => LineOut.skip

/-- Sequential handling of a batch of complete lines: parsed values are
yielded in order and the DONE payload returns immediately, dropping the rest
of the batch. -/
def runLines : List (List Char) → List JVal × Bool
  | [] => ([], false)
  | l :: ls =>
    match processLine l with
    | LineOut.done => ([], true)
    | LineOut.skip => runLines ls
    | LineOut.emit v => ((v :: (runLines ls).1), (runLines ls).2)

/-- Prepend a pending prefix onto the first piece of a split, used to state
how splitting distributes over appending. -/
def joinHead (p : List Char) : List (List Char) → List (List Char)
  | [] => [p]
  | h :: t => (p ++ h) :: t

/-- Model of the JS split on the newline character: the pieces between
newlines, including a trailing empty piece when the input ends with a
newline. -/
def splitNl : List Char → List (List Char)
  | [] => [[]]
  | c :: rest => if c = '\n' then [] :: splitNl rest else joinHead [c] (splitNl rest)

/-- Last piece of a split, the remainder the loop keeps as its buffer. -/
def lastLine : List (List Char) → List Char
  | [] => []
  | [x] => x
  | _ :: x :: t => lastLine (x :: t)

/-- All pieces of a split except the last, the complete lines the loop
processes for a chunk. -/
def initLines : List (List Char) → List (List Char)
  | [] => []
  | [_] => []
  | x :: y :: t => x :: initLines (y :: t)

/-- Embedding of the read loop of makeStreamRequest over a chunked byte
stream: each chunk is appended to the carried buffer, the complete lines are
handled in order, the trailing remainder becomes the new buffer, and the
DONE payload returns early; a stream that ends leaves the final buffered
remainder unprocessed. -/
def makeStreamDecode : List (List Char) → List Char → List JVal × Bool
  | [], _ => ([], false)
  | ch :: rest, buf =>
    if (runLines (initLines (splitNl (buf ++ ch)))).2 then
      ((runLines (initLines (splitNl (buf ++ ch)))).1, true)
    else
      ((runLines (initLines (splitNl (buf ++ ch)))).1
          ++ (makeStreamDecode rest (lastLine (splitNl (buf ++ ch)))).1,
       (makeStreamDecode rest (lastLine (splitNl (buf ++ ch)))).2)

/-- Normalized partial response of the streaming conversion: the per-frame
delta text, the finish reason of the frame when present, and the index
defaulted to 0. -/
structure StreamCandidate where
  text : String
  finishReason : Option String
  index : Int
deriving DecidableEq, Repr

/-- Dynamic field access on a parsed frame. -/
def jget : JVal → String → Option JVal
  | JVal.jobj fields, key => lookupEntry fields key
  | _, _ => none

/-- Embedding of the per-chunk body of convertStreamToGeminiFormat: take the
first choice, skipping the chunk when there is none, and build one candidate
from the delta text of that frame, never from the running accumulation; the
typed source assumes the choices field of a parsed chunk is an array. -/
def convertChunk (chunk : JVal) : Option StreamCandidate :=
  match jget chunk ("choices") with
  | some (JVal.jarr (choice :: _)) =>
    some
      { text :=
          match jget choice ("delta") with
          | some d =>
            match jget d ("content") with
            | some (JVal.jstr s) => s
            | _ => ""
          | _ => "",
        finishReason :=
          match jget choice ("finish_reason") with
          | some (JVal.jstr s) => some s
          | _ => none,
        index :=
          match jget choice ("index") with
          | some (JVal.jnum n) => n
          | _ => 0 }
  | _ => none

/-- Embedding of convertStreamToGeminiFormat over the whole yielded
sequence. -/
def convertStream (chunks : List JVal) : List StreamCandidate :=
  chunks.filterMap convertChunk

theorem splitNl_ne_nil (l : List Char) : splitNl l ≠ [] := by
  induction l with
  | nil => simp [splitNl]
  | cons c rest ih =>
    by_cases hc : c = '\n'
    · simp [splitNl, hc]
    · simp only [splitNl, if_neg hc]
      cases h : splitNl rest <;> simp [joinHead]

theorem joinHead_ne_nil (p : List Char) (l : List (List Char)) : joinHead p l ≠ [] := by
  cases l <;> simp [joinHead]

theorem initLines_cons_of_ne_nil (a : List Char) (l : List (List Char)) (h : l ≠ []) :
    initLines (a :: l) = a :: initLines l := by
  cases l with
  | nil => exact absurd rfl h
  | cons x t => rfl

theorem lastLine_cons_of_ne_nil (a : List Char) (l : List (List Char)) (h : l ≠ []) :
    lastLine (a :: l) = lastLine l := by
  cases l with
  | nil => exact absurd rfl h
  | cons x t => rfl

theorem splitNl_append (a b : List Char) :
    splitNl (a ++ b)
      = initLines (splitNl a) ++ joinHead (lastLine (splitNl a)) (splitNl b) := by
  induction a with
  | nil =>
    simp only [List.nil_append, splitNl, initLines, lastLine]
    cases h : splitNl b with
    | nil => exact absurd h (splitNl_ne_nil b)
    | cons x t => simp [joinHead]
  | cons c rest ih =>
    by_cases hc : c = '\n'
    · subst hc
      simp only [List.cons_append, splitNl, if_pos, List.append_eq]
      rw [ih, initLines_cons_of_ne_nil _ _ (splitNl_ne_nil rest),
        lastLine_cons_of_ne_nil _ _ (splitNl_ne_nil rest)]
      simp
    · simp only [List.cons_append, splitNl, if_neg hc, List.append_eq]
      rw [ih]
      cases hr : splitNl rest with
      | nil => exact absurd hr (splitNl_ne_nil rest)
      | cons h0 t =>
        cases t with
        | nil =>
          cases hb : splitNl b with
          | nil => exact absurd hb (splitNl_ne_nil b)
          | cons hb0 tb =>
            simp [joinHead, initLines, lastLine, List.cons_append, List.append_assoc]
        | cons y t' =>
          simp [joinHead, initLines, lastLine, List.cons_append]

theorem splitNl_no_newline (l : List Char) (h : '\n' ∉ l) : splitNl l = [l] := by
  induction l with
  | nil => rfl
  | cons c rest ih =>
    have hc : c ≠ '\n' := fun hh => h (hh ▸ List.mem_cons_self _ _)
    have hrest : '\n' ∉ rest := fun hh => h (List.mem_cons_of_mem _ hh)
    simp only [splitNl, if_neg hc]
    rw [ih hrest]
    simp [joinHead]

theorem lastLine_splitNl (l : List Char) : '\n' ∉ lastLine (splitNl l) := by
  induction l with
  | nil => simp [splitNl, lastLine]
  | cons c rest ih =>
    by_cases hc : c = '\n'
    · subst hc
      simp only [splitNl, if_pos]
      rw [lastLine_cons_of_ne_nil _ _ (splitNl_ne_nil rest)]
      exact ih
    · simp only [splitNl, if_neg hc]
      cases hr : splitNl rest with
      | nil => exact absurd hr (splitNl_ne_nil rest)
      | cons h0 t =>
        rw [hr] at ih
        cases t with
        | nil =>
          simp only [lastLine] at ih
          simp only [joinHead, lastLine]
          intro hmem
          rcases List.mem_append.mp hmem with h1 | h2
          · have hcc : '\n' = c := by simpa using h1
            exact hc hcc.symm
          · exact ih h2
        | cons y t' =>
          rw [lastLine_cons_of_ne_nil _ _ (by simp)] at ih
          simp only [joinHead]
          rw [lastLine_cons_of_ne_nil _ _ (by simp)]
          exact ih

theorem initLines_cons_append (A B : List (List Char)) (h : B ≠ []) :
    initLines (A ++ B) = A ++ initLines B := by
  induction A with
  | nil => rfl
  | cons a A' ih =>
    have hne : A' ++ B ≠ [] := by
      cases A' <;> simp [h]
    rw [List.cons_append, initLines_cons_of_ne_nil _ _ hne, ih, List.cons_append]

theorem runLines_append (u v : List (List Char)) :
    runLines (u ++ v) = if (runLines u).2 then ((runLines u).1, true)
      else ((runLines u).1 ++ (runLines v).1, (runLines v).2) := by
  induction u with
  | nil => simp [runLines]
  | cons l ls ih =>
    cases hp : processLine l with
    | done => simp [runLines, hp]
    | skip => simp [runLines, hp, ih]
    | emit w =>
      simp only [List.cons_append, runLines, hp, List.append_eq]
      rw [ih]
      by_cases hd : (runLines ls).2 <;> simp [hd]

theorem makeStreamDecode_eq (chunks : List (List Char)) (buf : List Char)
    (hbuf : '\n' ∉ buf) :
    makeStreamDecode chunks buf
      = runLines (initLines (splitNl (buf ++ chunks.flatten))) := by
  induction chunks generalizing buf with
  | nil =>
    simp [makeStreamDecode, splitNl_no_newline buf hbuf, initLines, runLines]
  | cons ch rest ih =>
    have hlast : '\n' ∉ lastLine (splitNl (buf ++ ch)) := lastLine_splitNl _
    have hassoc : buf ++ (ch :: rest).flatten = (buf ++ ch) ++ rest.flatten := by
      simp [List.append_assoc]
    have hjoin : joinHead (lastLine (splitNl (buf ++ ch))) (splitNl rest.flatten)
        = splitNl (lastLine (splitNl (buf ++ ch)) ++ rest.flatten) := by
      conv_rhs => rw [splitNl_append (lastLine (splitNl (buf ++ ch))) rest.flatten]
      rw [splitNl_no_newline _ hlast]
      rfl
    have hRHS : runLines (initLines (splitNl (buf ++ (ch :: rest).flatten)))
        = if (runLines (initLines (splitNl (buf ++ ch)))).2 then
            ((runLines (initLines (splitNl (buf ++ ch)))).1, true)
          else
            ((runLines (initLines (splitNl (buf ++ ch)))).1
                ++ (runLines (initLines (splitNl (lastLine (splitNl (buf ++ ch))
                    ++ rest.flatten)))).1,
             (runLines (initLines (splitNl (lastLine (splitNl (buf ++ ch))
                 ++ rest.flatten)))).2) := by
      conv_lhs => rw [hassoc, splitNl_append (buf ++ ch) rest.flatten]
      rw [initLines_cons_append _ _ (joinHead_ne_nil _ _), hjoin, runLines_append]
    rw [hRHS]
    simp only [makeStreamDecode]
    rw [ih _ hlast]

theorem splitNl_before_nl (u v : List Char) (h : '\n' ∉ u) :
    splitNl (u ++ '\n' :: v) = u :: splitNl v := by
  induction u with
  | nil => simp [splitNl]
  | cons c rest ih =>
    have hc : c ≠ '\n' := fun hh => h (hh ▸ List.mem_cons_self _ _)
    have hrest : '\n' ∉ rest := fun hh => h (List.mem_cons_of_mem _ hh)
    simp only [List.cons_append, splitNl, if_neg hc, List.append_eq]
    rw [ih hrest]
    simp [joinHead]

/-- First streamed frame of the specified exchange, without its newline. -/
def c3Line1 : List Char :=
  ("data: \x7b\"choices\":[\x7b\"delta\":\x7b\"content\":\"Hel\"\x7d,\"index\":0\x7d]\x7d").data

/-- Second streamed frame of the specified exchange, without its newline. -/
def c3Line2 : List Char :=
  ("data: \x7b\"choices\":[\x7b\"delta\":\x7b\"content\":\"lo\"\x7d,\"index\":0\x7d]\x7d").data

/-- Terminating frame of the stream protocol, without its newline. -/
def doneLine : List Char := ("data: [DONE]").data

/-- Byte sequence carrying exactly the two delta frames followed by the
terminating frame. -/
def c3Bytes : List Char :=
  c3Line1 ++ '\n' :: (c3Line2 ++ '\n' :: (doneLine ++ ['\n']))

/-- Parsed value of the first delta frame. -/
def c3Json1 : JVal :=
  JVal.jobj [(("choices"), JVal.jarr [JVal.jobj
    [(("delta"), JVal.jobj [(("content"), JVal.jstr ("Hel"))]),
     (("index"), JVal.jnum 0)]])]

/-- Parsed value of the second delta frame. -/
def c3Json2 : JVal :=
  JVal.jobj [(("choices"), JVal.jarr [JVal.jobj
    [(("delta"), JVal.jobj [(("content"), JVal.jstr ("lo"))]),
     (("index"), JVal.jnum 0)]])]

/-- C3 confirmed: for every chunking of the byte sequence carrying exactly
the two delta frames and the terminating frame, the streaming decoder yields
exactly two partial responses whose contents are the per-frame deltas Hel
then lo, never the running total, and the sequence terminates normally on
the DONE payload. -/
theorem c3_stream_two_deltas (chunks : List (List Char)) (h : chunks.flatten = c3Bytes) :
    convertStream (makeStreamDecode chunks []).1
      = [ { text := "Hel", finishReason := none, index := 0 },
          { text := "lo", finishReason := none, index := 0 } ] ∧
    (makeStreamDecode chunks []).2 = true := by
  have he := makeStreamDecode_eq chunks [] (List.not_mem_nil _)
  simp only [List.nil_append] at he
  rw [h] at he
  rw [he]
  exact ⟨rfl, rfl⟩

theorem c3_stream_two_deltas_witness :
    convertStream (makeStreamDecode [c3Bytes] []).1
      = [ { text := "Hel", finishReason := none, index := 0 },
          { text := "lo", finishReason := none, index := 0 } ] ∧
    (makeStreamDecode [c3Bytes] []).2 = true :=
  c3_stream_two_deltas [c3Bytes] (by simp)

theorem isPrefixOf_append_left (p r : List Char) : p.isPrefixOf (p ++ r) = true := by
  induction p with
  | nil => simp [List.isPrefixOf]
  | cons c t ih => simp [List.isPrefixOf, ih]

/-- Byte sequence with a malformed frame between the two valid delta frames,
ending with the terminating frame. -/
def c5Bytes (mal : List Char) : List Char :=
  c3Line1 ++ '\n' :: ((("data: ").data ++ mal) ++ '\n' :: (c3Line2 ++ '\n'
    :: (doneLine ++ ['\n'])))

/-- C5 confirmed: for every chunking of a stream holding a data frame whose
payload fails to parse as JSON between the two valid delta frames, the
decoder silently skips the malformed frame, raises nothing, and still emits
the partial responses of both surrounding valid frames in their original
order, terminating normally on the DONE payload.  The side conditions state
that the malformed payload holds no newline, survives trimming unchanged,
and is not the DONE marker. -/
theorem c5_malformed_frame_skipped (chunks : List (List Char)) (mal : List Char)
    (hnl : '\n' ∉ mal)
    (htrim : trimChars (("data: ").data ++ mal) = ("data: ").data ++ mal)
    (hdone : mal ≠ ("[DONE]").data)
    (hjson : jsonParse mal = none)
    (h : chunks.flatten = c5Bytes mal) :
    convertStream (makeStreamDecode chunks []).1
      = [ { text := "Hel", finishReason := none, index := 0 },
          { text := "lo", finishReason := none, index := 0 } ] ∧
    (makeStreamDecode chunks []).2 = true := by
  have hml : '\n' ∉ ("data: ").data ++ mal := by
    intro hmem
    rcases List.mem_append.mp hmem with h1 | h2
    · exact absurd h1 (by decide)
    · exact hnl h2
  have hdrop : (("data: ").data ++ mal).drop 6 = mal := by
    have h6 : (("data: ").data).length = 6 := rfl
    rw [← h6]
    exact List.drop_left _ _
  have hskip : processLine (("data: ").data ++ mal) = LineOut.skip := by
    simp only [processLine, htrim]
    rw [if_neg (by simp [isPrefixOf_append_left])]
    rw [hdrop, if_neg hdone, hjson]
  have hsplit : splitNl (c5Bytes mal)
      = [c3Line1, ("data: ").data ++ mal, c3Line2, doneLine, []] := by
    simp only [c5Bytes]
    rw [splitNl_before_nl _ _ (by decide), splitNl_before_nl _ _ hml,
      splitNl_before_nl _ _ (by decide), splitNl_before_nl _ _ (by decide)]
    rfl
  have hinit : initLines [c3Line1, ("data: ").data ++ mal, c3Line2, doneLine, []]
      = [c3Line1, ("data: ").data ++ mal, c3Line2, doneLine] := rfl
  have h1 : processLine c3Line1 = LineOut.emit c3Json1 := rfl
  have h2 : processLine c3Line2 = LineOut.emit c3Json2 := rfl
  have h3 : processLine doneLine = LineOut.done := rfl
  have hrun : runLines [c3Line1, ("data: ").data ++ mal, c3Line2, doneLine]
      = ([c3Json1, c3Json2], true) := by
    simp only [runLines, h1, h2, h3, hskip]
  have he := makeStreamDecode_eq chunks [] (List.not_mem_nil _)
  simp only [List.nil_append] at he
  rw [h, hsplit, hinit, hrun] at he
  rw [he]
  exact ⟨rfl, rfl⟩

theorem c5_malformed_frame_skipped_witness :
    convertStream (makeStreamDecode [c5Bytes (("\x7bnot json").data)] []).1
      = [ { text := "Hel", finishReason := none, index := 0 },
          { text := "lo", finishReason := none, index := 0 } ] ∧
    (makeStreamDecode [c5Bytes (("\x7bnot json").data)] []).2 = true :=
  c5_malformed_frame_skipped [c5Bytes (("\x7bnot json").data)] (("\x7bnot json").data)
    (by decide) (by decide) (by decide) rfl (by simp)
